import Mathlib

/-!
Shallow embedding of the entry synchronization and draft-reconciliation
subsystem of `src/packages/keystatic/src/app/SingletonPage.tsx`.

Conventions of the embedding:
* Parsed entry values are an abstract type `V` (the Schema Value Codec that
  produces them is external to the core, per the spec).
* Field schemas are an abstract type `F`; a top-level object schema is an
  association list `List (String × F)` mirroring `Object.entries(schema)`.
* File contents (`Uint8Array`) are modelled as `List Nat` (byte lists);
  file maps as association lists `List (String × List Nat)`.
* JS `Date` timestamps are `Nat` (milliseconds since epoch).
* `string | undefined` is `Option String`.
-/

namespace Keystatic

/-- A draft as produced by `draftData` in `SingletonPageWrapper`
(SingletonPage.tsx lines 516-537): the parsed state, the saved-at
timestamp and the draft's `beforeTreeKey` (called `treeKey` there). -/
structure DraftInfo (V : Type) where
  state : V
  savedAt : Nat
  treeKey : Option String
deriving DecidableEq

/-- The stored draft record shape checked by `storedValSchema`
(SingletonPage.tsx lines 492-497). The zod schema requires
`version: z.literal(1)`, a `Date`, an optional string and a
`Map<string, Uint8Array>`; the typing of the last three fields is captured
by this structure's field types, while the `version` field is kept an
arbitrary `Nat` so that the `z.literal(1)` check is an explicit runtime
test (`storedValSchemaParse`). -/
structure StoredVal where
  version : Nat
  savedAt : Nat
  beforeTreeKey : Option String
  files : List (String × List Nat)
deriving DecidableEq

/-- `storedValSchema.parse` (SingletonPage.tsx lines 492-497, used at
line 520): succeeds exactly when the record's `version` tag is the
literal `1`; any other version fails validation and the draft is
discarded. -/
def storedValSchemaParse (raw : StoredVal) : Option StoredVal :=
  if raw.version = 1 then some raw else none

/-- A Draft Store key. In the source the key is the tuple
`['singleton', singleton]` (SingletonPage.tsx lines 346 and 518). -/
abbrev DraftKey := String × String

/-- The Draft Store: identity key to stored record.
Modelled from the spec: the Draft Store itself (`persistence.ts`) is not
under src/; the spec describes it as
`get(identityKey) / set(identityKey, DraftRecord) / delete(identityKey)`
on a process-local persistent key/value store. -/
def DraftStore := DraftKey → Option StoredVal

/-- Modelled from the spec: `set(identityKey, DraftRecord)` overwrites the
record stored under exactly that key. -/
def setDraft (store : DraftStore) (key : DraftKey) (v : StoredVal) : DraftStore :=
  fun k => if k = key then some v else store k

/-- Modelled from the spec: `delete(identityKey)` removes the record stored
under exactly that key. -/
def delDraft (store : DraftStore) (key : DraftKey) : DraftStore :=
  fun k => if k = key then none else store k

/-- Modelled from the spec: `get(identityKey)` reads the record stored
under the key. -/
def getDraft (store : DraftStore) (key : DraftKey) : Option StoredVal :=
  store key

/-- The Draft Store key built by the local-mode autosave effect:
`const key = ['singleton', singleton]` (SingletonPage.tsx line 346).
It mentions only the entry kind and the singleton name — no branch and no
tree key. -/
def autosaveDraftKey (singleton : String) : DraftKey :=
  ("singleton", singleton)

/-- The Draft Store key used by `draftData` to look a draft up:
`getDraft(['singleton', props.singleton])` (SingletonPage.tsx line 518). -/
def draftLookupKey (singleton : String) : DraftKey :=
  ("singleton", singleton)

/-- The initial editable state chosen by `LocalSingletonPage`
(SingletonPage.tsx lines 317-324):
`draft?.state ?? (initialState === null ? getInitialPropsValue(schema) : initialState)`.
`defaultValue` stands for `getInitialPropsValue(schema)` (the Schema Value
Codec's empty/default value, external to the core). -/
def initialLocalState {V : Type} (draft : Option (DraftInfo V))
    (initialState : Option V) (defaultValue : V) : V :=
  match draft with
  | some d => d.state
  | none =>
    match initialState with
    | none => defaultValue
    | some s => s

/-- The draft-restored toast effect (SingletonPage.tsx lines 325-330):
when a draft exists and the current state is still the draft's state, show
`showDraftRestoredToast(draft.savedAt, localTreeKey !== draft.treeKey)`.
The result is `some (savedAt, treeChangedWarning)` when the toast is
shown, `none` otherwise. -/
def draftRestoredToast {V : Type} [DecidableEq V] (draft : Option (DraftInfo V))
    (state : V) (localTreeKey : Option String) : Option (Nat × Bool) :=
  match draft with
  | some d =>
    if state = d.state then some (d.savedAt, decide (localTreeKey ≠ d.treeKey))
    else none
  | none => none

/-- The pair held by `useState` in `LocalSingletonPage`
(SingletonPage.tsx line 317). -/
structure LocalState (V : Type) where
  localTreeKey : Option String
  state : V
deriving DecidableEq

/-- The render-time reconciliation in `LocalSingletonPage`
(SingletonPage.tsx lines 332-338): when the tree key held in state differs
from the current `localTreeKey`, replace the state with a fresh
committed-derived (or default) state tagged with the new tree key;
otherwise keep the state unchanged. -/
def reconcileTreeKey {V : Type} (cur : LocalState V) (localTreeKey : Option String)
    (initialState : Option V) (defaultValue : V) : LocalState V :=
  if cur.localTreeKey ≠ localTreeKey then
    { localTreeKey := localTreeKey
      state :=
        match initialState with
        | none => defaultValue
        | some s => s }
  else cur

/-- The local-mode autosave effect (SingletonPage.tsx lines 345-375).
`serializeState` stands for `serializeEntryToFiles` applied to the current
state (the Schema Value Codec's serializer, external to the core); `now`
stands for `new Date()`. When `hasChanged` holds, the effect writes
`setDraft(key, (version 1, savedAt now, beforeTreeKey localTreeKey, files))`;
otherwise it deletes the draft under the key. -/
def autosaveEffect (store : DraftStore) (singleton : String) (hasChanged : Bool)
    (localTreeKey : Option String) (serializedFiles : List (String × List Nat))
    (now : Nat) : DraftStore :=
  let key := autosaveDraftKey singleton
  if hasChanged then
    setDraft store key
      { version := 1
        savedAt := now
        beforeTreeKey := localTreeKey
        files := serializedFiles }
  else
    delDraft store key

/-- `draftData` in `SingletonPageWrapper` (SingletonPage.tsx lines
516-537): read the raw record from the Draft Store, fail when none is
stored, validate it with `storedValSchema.parse`, parse the files back to
a value with `parseEntry` (Schema Value Codec, external — passed in as
`parseEntry`), and package the result. Any failure is an exception caught
by `useData` and surfaced as a non-fatal error state. -/
def draftData {V : Type} (parseEntry : List (String × List Nat) → Except String V)
    (store : DraftStore) (singleton : String) : Except String (DraftInfo V) := do
  let some raw := getDraft store (draftLookupKey singleton)
    | Except.error "No draft found"
  let some stored := storedValSchemaParse raw
    | Except.error "draft failed schema validation"
  let parsed ← parseEntry stored.files
  Except.ok { state := parsed, savedAt := stored.savedAt, treeKey := stored.beforeTreeKey }

/-- The draft handed to `LocalSingletonPage` by the wrapper
(SingletonPage.tsx line 667):
`draftData.kind === 'loaded' ? draftData.data : undefined` — an errored
draft load renders the page with no draft rather than failing. -/
def wrapperDraft {V : Type} (parseEntry : List (String × List Nat) → Except String V)
    (store : DraftStore) (singleton : String) : Option (DraftInfo V) :=
  (draftData parseEntry store singleton).toOption

/-- The initial editable state of the whole local-mode page: the wrapper's
draft load composed with `LocalSingletonPage`'s initial-state choice. -/
def pageInitialState {V : Type} (parseEntry : List (String × List Nat) → Except String V)
    (store : DraftStore) (singleton : String)
    (initialState : Option V) (defaultValue : V) : V :=
  initialLocalState (wrapperDraft parseEntry store singleton) initialState defaultValue

/-! ### Update Coordinator -/

/-- The Update Result variant (spec §3), matching the `updateResult.kind`
values the page code branches on (`loading` at lines 165 and 180,
`error` at line 243, `needs-new-branch` at line 258, `needs-fork` at
line 281). -/
inductive UpdateResult where
  | idle
  | loading
  | error (message : String)
  | needsNewBranch (reason : String) (branchOid : String)
  | needsFork
deriving DecidableEq

/-- `updateResult.kind === 'loading'`. -/
def UpdateResult.isLoading : UpdateResult → Bool
  | .loading => true
  | _ => false

/-- What the `onCreate` handler in `SingletonPageInner` does
(SingletonPage.tsx lines 164-171). -/
inductive OnCreateAction where
  | nothing
  | forceValidation
  | submit
deriving DecidableEq

/-- The submit handler `onCreate` (SingletonPage.tsx lines 164-171):
returns immediately when the update result is already loading or nothing
has changed; turns validation display on when client-side validation
fails; otherwise calls `props.onUpdate()`. -/
def onCreate (updateResult : UpdateResult) (hasChanged : Bool) (valid : Bool) :
    OnCreateAction :=
  if updateResult.isLoading || !hasChanged then OnCreateAction.nothing
  else if !valid then OnCreateAction.forceValidation
  else OnCreateAction.submit

/-- A commit request sent to the backing store. -/
structure CommitRequest where
  branch : String
  sha : String
  files : List (String × List Nat)
deriving DecidableEq

/-- Modelled from the spec: the Backing Store Client's `commit` response
(spec §6): `Success | BranchDiverged(reason, branchOid) | NeedsFork |
Error(message)`. The client itself (`updating.tsx`) is not under src/. -/
inductive CommitResponse where
  | success
  | branchDiverged (reason : String) (branchOid : String)
  | needsFork
  | error (message : String)
deriving DecidableEq

/-- Modelled from the spec: the Update Coordinator's classification of the
backing store's response (spec §4.4): success resets to idle; branch
divergence becomes `needs-new-branch(reason, branchOid)`; missing write
permission becomes `needs-fork`; anything else becomes `error(message)`. -/
def classifyCommitResponse : CommitResponse → UpdateResult
  | .success => UpdateResult.idle
  | .branchDiverged reason branchOid => UpdateResult.needsNewBranch reason branchOid
  | .needsFork => UpdateResult.needsFork
  | .error message => UpdateResult.error message

/-- Modelled from the spec: the Update Coordinator's state (spec §4.4,
`useUpsertItem` in `updating.tsx`, not under src/): the current Update
Result, the log of commit requests sent to the backing store (newest
first), and the serialized payload of the last submit, kept so a retry
after branch creation reuses it instead of re-serializing. -/
structure Coordinator where
  result : UpdateResult
  sent : List CommitRequest
  lastSerialized : Option (List (String × List Nat))
deriving DecidableEq

/-- Modelled from the spec: `update(options?)` beginning a submit
(spec §4.4). No-op if already `loading`; otherwise serializes the current
state (`serialized` — on a retry the already-serialized payload is reused
instead), sends one commit request to the backing store at the target
branch/sha (the explicit override when retrying, the current branch and
base commit by default), and moves the Update Result to `loading`. -/
def Coordinator.beginUpdate (c : Coordinator) (currentBranch : String)
    (baseCommit : String) (serialized : List (String × List Nat))
    (opts : Option (String × String)) : Coordinator :=
  if c.result.isLoading then c
  else
    let payload :=
      match opts with
      | some _ =>
        match c.lastSerialized with
        | some p => p
        | none => serialized
      | none => serialized
    let req : CommitRequest :=
      { branch :=
          match opts with
          | some o => o.1
          | none => currentBranch
        sha :=
          match opts with
          | some o => o.2
          | none => baseCommit
        files := payload }
    { result := UpdateResult.loading
      sent := req :: c.sent
      lastSerialized := some payload }

/-- Modelled from the spec: the in-flight submit resolving — the backing
store's response is classified into the new Update Result (spec §4.4). -/
def Coordinator.completeUpdate (c : Coordinator) (resp : CommitResponse) : Coordinator :=
  { c with result := classifyCommitResponse resp }

/-- The `branchOid` handed to the needs-new-branch recovery dialog by
`SingletonPageInner` (SingletonPage.tsx line 260):
`<CreateBranchDuringUpdateDialog branchOid=(baseCommit) ...>` — the base
commit of the current branch, the commit the rejected submit was made
against. -/
def newBranchDialogOid (baseCommit : String) : String :=
  baseCommit

/-- The retry wired up by `SingletonPageInner`'s needs-new-branch dialog
(SingletonPage.tsx lines 258-272): the dialog is rendered with
`branchOid={baseCommit}` and its `onCreate` calls
`props.onUpdate({ branch: newBranch, sha: baseCommit })`. -/
def retryAfterNewBranch (c : Coordinator) (currentBranch : String)
    (baseCommit : String) (serialized : List (String × List Nat))
    (newBranch : String) : Coordinator :=
  c.beginUpdate currentBranch baseCommit serialized (some (newBranch, baseCommit))

/-! ### Collaborative documents -/

/-- The collaborative-document key built by `SingletonPageWrapper`
(SingletonPage.tsx line 548):
`const key = (branchInfo.currentBranch)/(props.singleton)`. -/
def collabDocKey (currentBranch : String) (singleton : String) : String :=
  currentBranch ++ "/" ++ singleton

/-- A `Y.Map` is modelled as an association list with unique keys; `set`
replaces the binding for the key when present and appends it otherwise.
`W` is the type of Yjs values (the output of
`getYjsValFromParsedValue`, external to the core). -/
def ymapSet {W : Type} : List (String × W) → String → W → List (String × W)
  | [], k, v => [(k, v)]
  | p :: t, k, v => if p.1 = k then (k, v) :: t else p :: ymapSet t k v

/-- `Y.Map.get`. -/
def ymapGet {W : Type} (m : List (String × W)) (k : String) : Option W :=
  (m.find? (fun p => p.1 = k)).map (fun p => p.2)

/-- The value a top-level field is seeded from, both on first open
(SingletonPage.tsx lines 570-576) and on reset (lines 466-470): the
committed state's value for the field when the entry exists, the schema
field's default (`getInitialPropsValue(value)`) when it does not.
`toY` stands for `getYjsValFromParsedValue` and `defaultF` for
`getInitialPropsValue`, both external to the core; the committed state is
a total assignment of a parsed value to every top-level field (which is
what `parseEntry` produces for an existing entry). -/
def seedFieldValue {F V W : Type} (toY : F → V → W) (defaultF : F → V)
    (committed : Option (String → V)) (k : String) (f : F) : W :=
  match committed with
  | none => toY f (defaultF f)
  | some st => toY f (st k)

/-- The outcome of running the collaborative document set-up or reset: the
resulting data map and how many Yjs transactions were performed. -/
structure CollabStep (W : Type) where
  map : List (String × W)
  transactions : Nat
deriving DecidableEq

/-- The first-open seeding in `SingletonPageWrapper`'s `mapData`
(SingletonPage.tsx lines 567-580): if the document's `data` map is empty
(`!data.size`), one `doc.transact` sets every top-level schema field from
the committed state (or the schema default when the entry is
`'not-found'`); otherwise nothing is written. -/
def seedCollabDoc {F V W : Type} (toY : F → V → W) (defaultF : F → V)
    (schema : List (String × F)) (committed : Option (String → V))
    (data : List (String × W)) : CollabStep W :=
  if data.length = 0 then
    { map := schema.foldl
        (fun m kf => ymapSet m kf.1 (seedFieldValue toY defaultF committed kf.1 kf.2))
        data
      transactions := 1 }
  else
    { map := data, transactions := 0 }

/-- The observable steps of `CollabSingletonPage`'s `onReset`
(SingletonPage.tsx lines 464-477): one Yjs transaction writing the fields,
then awaiting `doc.whenSynced`, then `window.location.reload()`. -/
inductive ResetEvent where
  | transacted
  | syncAcknowledged
  | reloaded
deriving DecidableEq

/-- The outcome of `onReset`: the resulting data map and the ordered list
of observable steps. -/
structure ResetOutcome (W : Type) where
  map : List (String × W)
  events : List ResetEvent
deriving DecidableEq

/-- `CollabSingletonPage`'s `onReset` (SingletonPage.tsx lines 464-477):
inside a single `doc.transact`, set every top-level schema field to
`getYjsValFromParsedValue(value, props.initialState?.[key] ?? getInitialPropsValue(value))`
(the committed value when the entry exists, the schema default otherwise);
then await `doc.whenSynced`; only then force a full reload. -/
def collabOnReset {F V W : Type} (toY : F → V → W) (defaultF : F → V)
    (schema : List (String × F)) (initialState : Option (String → V))
    (m : List (String × W)) : ResetOutcome W :=
  { map := schema.foldl
      (fun acc kf => ymapSet acc kf.1 (seedFieldValue toY defaultF initialState kf.1 kf.2))
      m
    events := [ResetEvent.transacted, ResetEvent.syncAcknowledged, ResetEvent.reloaded] }

/-! ### Helper lemmas about `ymapSet` / `ymapGet` -/

theorem ymapGet_set_self {W : Type} (m : List (String × W)) (k : String) (v : W) :
    ymapGet (ymapSet m k v) k = some v := by
  induction m with
  | nil => simp [ymapGet, ymapSet]
  | cons p t ih =>
    by_cases hp : p.1 = k
    · simp [ymapGet, ymapSet, hp]
    · simpa [ymapGet, ymapSet, hp] using ih

theorem ymapGet_set_other {W : Type} (m : List (String × W)) (k k' : String)
    (v : W) (h : k' ≠ k) :
    ymapGet (ymapSet m k v) k' = ymapGet m k' := by
  have hk : ¬(k = k') := fun he => h he.symm
  induction m with
  | nil => simp [ymapGet, ymapSet, hk]
  | cons p t ih =>
    by_cases hp : p.1 = k
    · have hp' : ¬(p.1 = k') := fun he => h (he ▸ hp)
      simp [ymapGet, ymapSet, hp, hk, hp']
    · by_cases hpk : p.1 = k'
      · simp only [ymapSet, if_neg hp]
        simp [ymapGet, hpk]
      · simp only [ymapSet, if_neg hp]
        simpa [ymapGet, hpk] using ih

theorem ymapGet_foldl_set_not_mem {F W : Type} (g : String → F → W)
    (l : List (String × F)) (m0 : List (String × W)) (k : String)
    (hk : ∀ kf ∈ l, kf.1 ≠ k) :
    ymapGet (l.foldl (fun m kf => ymapSet m kf.1 (g kf.1 kf.2)) m0) k
      = ymapGet m0 k := by
  induction l generalizing m0 with
  | nil => rfl
  | cons p t ih =>
    rw [List.foldl_cons]
    rw [ih _ (fun kf hm => hk kf (List.mem_cons_of_mem p hm))]
    exact ymapGet_set_other _ _ _ _ (Ne.symm (hk p (List.mem_cons_self p t)))

theorem ymapGet_foldl_set_mem {F W : Type} (g : String → F → W)
    (l : List (String × F)) (m0 : List (String × W)) (kf : String × F)
    (hmem : kf ∈ l) (hnd : (l.map Prod.fst).Nodup) :
    ymapGet (l.foldl (fun m p => ymapSet m p.1 (g p.1 p.2)) m0) kf.1
      = some (g kf.1 kf.2) := by
  induction l generalizing m0 with
  | nil => cases hmem
  | cons p t ih =>
    rw [List.foldl_cons]
    rw [List.map_cons, List.nodup_cons] at hnd
    rcases List.mem_cons.mp hmem with heq | hmem'
    · subst heq
      have hnot : ∀ q ∈ t, q.1 ≠ kf.1 := by
        intro q hq hqe
        exact hnd.1 (hqe ▸ List.mem_map_of_mem Prod.fst hq)
      rw [ymapGet_foldl_set_not_mem _ _ _ _ hnot]
      exact ymapGet_set_self _ _ _
    · exact ih _ hmem' hnd.2

/-! ### Claim theorems -/

/-- C1: for every singleton entry opened in local mode with a persisted
draft, the initial editable state chosen by `LocalSingletonPage` equals
the draft's decoded value, and the draft-restored toast is shown with its
"tree changed" warning flag set if and only if the draft's
`beforeTreeKey` (the `treeKey` of the decoded draft) differs from the
current tree key. -/
theorem local_mode_draft_restored {V : Type} [DecidableEq V]
    (d : DraftInfo V) (initialState : Option V) (defaultValue : V)
    (localTreeKey : Option String) :
    initialLocalState (some d) initialState defaultValue = d.state ∧
    ∃ w : Bool,
      draftRestoredToast (some d)
          (initialLocalState (some d) initialState defaultValue) localTreeKey
        = some (d.savedAt, w) ∧
      (w = true ↔ localTreeKey ≠ d.treeKey) := by
  refine ⟨rfl, decide (localTreeKey ≠ d.treeKey), ?_, ?_⟩
  · simp [draftRestoredToast, initialLocalState]
  · simp

/-- C2: for every singleton entry opened in local mode with no persisted
draft, the initial editable state equals the committed state's value when
the entry exists, and the schema's empty/default value
(`getInitialPropsValue(schema)`) when `initialState` is null. -/
theorem local_mode_no_draft_initial_state {V : Type}
    (s : V) (defaultValue : V) :
    initialLocalState (V := V) none (some s) defaultValue = s ∧
    initialLocalState (V := V) none none defaultValue = defaultValue :=
  ⟨rfl, rfl⟩

/-- C3: after a run of the local-mode autosave effect, the Draft Store
holds under the entry's identity key exactly the record
`(beforeTreeKey := current tree key, files := serialized files,
savedAt := now, version := 1)` when `hasChanged` is true — overwriting
whatever was stored there before — and holds nothing under that key when
`hasChanged` is false; every other key is untouched. -/
theorem autosave_effect_spec (store : DraftStore) (singleton : String)
    (hasChanged : Bool) (localTreeKey : Option String)
    (serializedFiles : List (String × List Nat)) (now : Nat) :
    (autosaveEffect store singleton hasChanged localTreeKey serializedFiles now
        (autosaveDraftKey singleton)
      = if hasChanged then
          some { version := 1
                 savedAt := now
                 beforeTreeKey := localTreeKey
                 files := serializedFiles }
        else none) ∧
    ∀ k : DraftKey, k ≠ autosaveDraftKey singleton →
      autosaveEffect store singleton hasChanged localTreeKey serializedFiles now k
        = store k := by
  constructor
  · cases hasChanged <;> simp [autosaveEffect, setDraft, delDraft]
  · intro k hk
    cases hasChanged <;> simp [autosaveEffect, setDraft, delDraft, hk]

/-- C3 witness: a concrete run of the effect leaves an unrelated key
untouched. -/
theorem autosave_effect_spec_witness :
    autosaveEffect (fun _ => none) "settings" true (some "tk")
        [("settings.yaml", [1, 2])] 5 ("singleton", "other")
      = none := by
  have h := (autosave_effect_spec (fun _ => none) "settings" true (some "tk")
      [("settings.yaml", [1, 2])] 5).2 ("singleton", "other") (by decide)
  simpa using h

/-- C4: while the update result is `loading`, a new update request is a
no-op — the coordinator state (and in particular the log of commit
requests sent to the backing store) is unchanged — and the page-level
submit handler `onCreate` also bails out before calling `onUpdate`. -/
theorem update_noop_while_loading (c : Coordinator)
    (hl : c.result = UpdateResult.loading) (currentBranch baseCommit : String)
    (serialized : List (String × List Nat)) (opts : Option (String × String)) :
    c.beginUpdate currentBranch baseCommit serialized opts = c ∧
    (c.beginUpdate currentBranch baseCommit serialized opts).sent = c.sent ∧
    ∀ hasChanged valid : Bool,
      onCreate c.result hasChanged valid = OnCreateAction.nothing := by
  have hload : c.result.isLoading = true := by
    rw [hl]
    rfl
  refine ⟨?_, ?_, ?_⟩
  · simp [Coordinator.beginUpdate, hload]
  · simp [Coordinator.beginUpdate, hload]
  · intro hasChanged valid
    simp [onCreate, hload]

/-- C4 witness. -/
theorem update_noop_while_loading_witness :
    ({ result := UpdateResult.loading, sent := [], lastSerialized := none
        : Coordinator }.beginUpdate "main" "abc" [] none).sent = [] :=
  (update_noop_while_loading
    { result := UpdateResult.loading, sent := [], lastSerialized := none }
    rfl "main" "abc" [] none).2.1

/-- C5: whenever the current tree key differs from the tree key held in
`LocalSingletonPage`'s state, the render-time reconciliation replaces the
editable state with a fresh committed-derived state (the committed value
when the entry exists, the schema default otherwise) tagged with the new
tree key — in particular this holds when no unsaved draft exists, so
switching branches without unsaved edits reflects the new branch's
content. -/
theorem reconcile_on_tree_key_change {V : Type} (cur : LocalState V)
    (localTreeKey : Option String) (initialState : Option V) (defaultValue : V)
    (h : cur.localTreeKey ≠ localTreeKey) :
    reconcileTreeKey cur localTreeKey initialState defaultValue
      = { localTreeKey := localTreeKey
          state := initialLocalState none initialState defaultValue } := by
  simp only [reconcileTreeKey, if_pos h]
  cases initialState <;> rfl

/-- C5 witness. -/
theorem reconcile_on_tree_key_change_witness :
    reconcileTreeKey { localTreeKey := some "old", state := (3 : Nat) }
        (some "new") (some 7) 0
      = { localTreeKey := some "new", state := 7 } :=
  reconcile_on_tree_key_change
    { localTreeKey := some "old", state := (3 : Nat) } (some "new") (some 7) 0
    (by decide)

/-- C6: when a commit is rejected as branch divergence, the update result
becomes `needs-new-branch(reason, branchOid)`; the recovery dialog is
handed that `branchOid` (the base commit the submit was made against,
which the backing store reports as the oid to branch from); and the retry
issued by the dialog's `onCreate` sends
`update(branch := newBranch, sha := branchOid)` carrying the same
serialized payload as the original submit (the coordinator reuses the
already-serialized files instead of `retrySerialized`). -/
theorem branch_divergence_recovery (c0 : Coordinator)
    (h0 : c0.result = UpdateResult.idle)
    (currentBranch baseCommit : String) (payload : List (String × List Nat))
    (reason oid newBranch : String)
    (retrySerialized : List (String × List Nat))
    (hbase : baseCommit = oid) :
    ((c0.beginUpdate currentBranch baseCommit payload none).completeUpdate
        (CommitResponse.branchDiverged reason oid)).result
      = UpdateResult.needsNewBranch reason oid ∧
    newBranchDialogOid baseCommit = oid ∧
    (retryAfterNewBranch
        ((c0.beginUpdate currentBranch baseCommit payload none).completeUpdate
          (CommitResponse.branchDiverged reason oid))
        currentBranch baseCommit retrySerialized newBranch).sent
      = { branch := newBranch, sha := oid, files := payload } ::
        ((c0.beginUpdate currentBranch baseCommit payload none).completeUpdate
          (CommitResponse.branchDiverged reason oid)).sent := by
  subst hbase
  refine ⟨?_, rfl, ?_⟩
  · simp [Coordinator.beginUpdate, Coordinator.completeUpdate,
      classifyCommitResponse, h0, UpdateResult.isLoading]
  · simp [Coordinator.beginUpdate, Coordinator.completeUpdate,
      classifyCommitResponse, retryAfterNewBranch, h0, UpdateResult.isLoading]

/-- C6 witness: the scenario of spec §8 — the payload serialized from
`(title: B)`, a `BranchDiverged("stale", "abc123")` response, the new
branch `feature-x`. -/
theorem branch_divergence_recovery_witness :
    (retryAfterNewBranch
        (({ result := UpdateResult.idle, sent := [], lastSerialized := none
            : Coordinator }.beginUpdate "main" "abc123"
              [("title.yaml", [66])] none).completeUpdate
          (CommitResponse.branchDiverged "stale" "abc123"))
        "main" "abc123" [("title.yaml", [67])] "feature-x").sent
      = { branch := "feature-x", sha := "abc123", files := [("title.yaml", [66])] } ::
        (({ result := UpdateResult.idle, sent := [], lastSerialized := none
            : Coordinator }.beginUpdate "main" "abc123"
              [("title.yaml", [66])] none).completeUpdate
          (CommitResponse.branchDiverged "stale" "abc123")).sent :=
  (branch_divergence_recovery
    { result := UpdateResult.idle, sent := [], lastSerialized := none }
    rfl "main" "abc123" [("title.yaml", [66])] "stale" "abc123" "feature-x"
    [("title.yaml", [67])] rfl).2.2

/-- C7: on first open of a collaborative document, if the document's data
map is empty, one transaction seeds every top-level schema field from the
committed state (or from the schema default when the entry does not
exist); if the data map is non-empty, nothing is written and the existing
content is left unchanged. -/
theorem collab_first_open_seeding {F V W : Type} (toY : F → V → W)
    (defaultF : F → V) (schema : List (String × F))
    (committed : Option (String → V)) (data : List (String × W))
    (hnd : (schema.map Prod.fst).Nodup) :
    (data = [] →
      (seedCollabDoc toY defaultF schema committed data).transactions = 1 ∧
      ∀ kf ∈ schema,
        ymapGet (seedCollabDoc toY defaultF schema committed data).map kf.1
          = some (seedFieldValue toY defaultF committed kf.1 kf.2)) ∧
    (data ≠ [] →
      seedCollabDoc toY defaultF schema committed data
        = { map := data, transactions := 0 }) := by
  constructor
  · rintro rfl
    refine ⟨by simp [seedCollabDoc], ?_⟩
    intro kf hmem
    have h := ymapGet_foldl_set_mem
      (fun k f => seedFieldValue toY defaultF committed k f) schema [] kf hmem hnd
    simpa [seedCollabDoc] using h
  · intro hne
    have hlen : ¬data.length = 0 := by
      simpa [List.length_eq_zero] using hne
    simp [seedCollabDoc, hlen]

/-- C7 witness: the scenario of spec §8 — an empty document for singleton
`settings` with committed state `(theme: dark)` is seeded with exactly
that value. -/
theorem collab_first_open_seeding_witness :
    ymapGet (seedCollabDoc (fun (_ : Unit) (v : String) => v)
        (fun _ => "") [("theme", ())] (some (fun _ => "dark"))
        ([] : List (String × String))).map "theme"
      = some "dark" := by
  have h := ((collab_first_open_seeding (fun (_ : Unit) (v : String) => v)
      (fun _ => "") [("theme", ())] (some (fun _ => "dark")) [] (by simp)).1
      rfl).2 ("theme", ()) (by simp)
  simpa [seedFieldValue] using h

/-- C8: a stored draft that fails schema validation — in particular any
record whose `version` tag is not `1`, or one whose files fail to parse —
is discarded: the wrapper hands no draft to `LocalSingletonPage`, the
initial editable state falls back to the committed state, and the failure
is a caught error value, not a crash. -/
theorem corrupt_draft_falls_back {V : Type}
    (parseEntry : List (String × List Nat) → Except String V)
    (store : DraftStore) (singleton : String) (raw : StoredVal)
    (initialState : Option V) (defaultValue : V) (e : String)
    (hstore : store (draftLookupKey singleton) = some raw)
    (hfail : raw.version ≠ 1 ∨ parseEntry raw.files = Except.error e) :
    wrapperDraft parseEntry store singleton = none ∧
    pageInitialState parseEntry store singleton initialState defaultValue
      = initialLocalState none initialState defaultValue := by
  have hw : wrapperDraft parseEntry store singleton = none := by
    rcases hfail with hver | hparse
    · have hp : storedValSchemaParse raw = none := by
        rw [storedValSchemaParse, if_neg hver]
      simp only [wrapperDraft, draftData, getDraft, hstore, hp]
      rfl
    · by_cases hver : raw.version = 1
      · have hp : storedValSchemaParse raw = some raw := by
          rw [storedValSchemaParse, if_pos hver]
        simp only [wrapperDraft, draftData, getDraft, hstore, hp, hparse]
        rfl
      · have hp : storedValSchemaParse raw = none := by
          rw [storedValSchemaParse, if_neg hver]
        simp only [wrapperDraft, draftData, getDraft, hstore, hp]
        rfl
  refine ⟨hw, ?_⟩
  rw [pageInitialState, hw]

/-- C8 witness: a stored record with `version = 2` is discarded and the
page starts from the committed value. -/
theorem corrupt_draft_falls_back_witness :
    pageInitialState (fun _ => Except.ok "ignored")
        (fun k => if k = ("singleton", "settings") then
            some { version := 2, savedAt := 0, beforeTreeKey := none, files := [] }
          else none)
        "settings" (some "committed") "empty"
      = "committed" := by
  have h := (corrupt_draft_falls_back (fun _ => Except.ok "ignored")
      (fun k => if k = ("singleton", "settings") then
          some { version := 2, savedAt := 0, beforeTreeKey := none, files := [] }
        else none)
      "settings"
      { version := 2, savedAt := 0, beforeTreeKey := none, files := [] }
      (some "committed") "empty" "unused"
      (by simp [draftLookupKey])
      (Or.inl (by decide))).2
  simpa [initialLocalState] using h

/-- C9: `CollabSingletonPage`'s reset overwrites, inside one transaction,
every top-level schema field of the shared document back to its
committed-state value (the schema default for a non-existent entry), and
the full reload of the consuming view happens only after the transaction
is acknowledged as synced (the ordered observable steps are transact,
sync-acknowledged, reload). -/
theorem collab_reset_spec {F V W : Type} (toY : F → V → W) (defaultF : F → V)
    (schema : List (String × F)) (initialState : Option (String → V))
    (m : List (String × W)) (hnd : (schema.map Prod.fst).Nodup) :
    (∀ kf ∈ schema,
      ymapGet (collabOnReset toY defaultF schema initialState m).map kf.1
        = some (seedFieldValue toY defaultF initialState kf.1 kf.2)) ∧
    (collabOnReset toY defaultF schema initialState m).events
      = [ResetEvent.transacted, ResetEvent.syncAcknowledged,
          ResetEvent.reloaded] := by
  constructor
  · intro kf hmem
    have h := ymapGet_foldl_set_mem
      (fun k f => seedFieldValue toY defaultF initialState k f) schema m kf hmem hnd
    simpa [collabOnReset] using h
  · rfl

/-- C9 witness: a concrete reset of a document holding an edited value
restores the committed value. -/
theorem collab_reset_spec_witness :
    ymapGet (collabOnReset (fun (_ : Unit) (v : String) => v) (fun _ => "")
        [("theme", ())] (some (fun _ => "dark")) [("theme", "light")]).map "theme"
      = some "dark" := by
  have h := (collab_reset_spec (fun (_ : Unit) (v : String) => v) (fun _ => "")
      [("theme", ())] (some (fun _ => "dark")) [("theme", "light")]
      (by simp)).1 ("theme", ()) (by simp)
  simpa [seedFieldValue] using h

/-- C10: the Draft Store key for a singleton is `("singleton", name)` — it
mentions neither the current branch nor the tree key, and the autosave
effect and the wrapper's draft lookup build the same key — so a draft
autosaved in a session on one branch (with tree key `treeKeyAtSave`) is
found and restored by a later session on any other branch (with tree key
`treeKeyNow`); staleness is detected only afterwards, by the restored
toast's warning flag comparing the draft's `beforeTreeKey` with the
current tree key. -/
theorem draft_found_across_branches {V : Type} [DecidableEq V]
    (parseEntry : List (String × List Nat) → Except String V)
    (store : DraftStore) (singleton : String)
    (treeKeyAtSave treeKeyNow : Option String)
    (files : List (String × List Nat)) (now : Nat) (v : V)
    (hparse : parseEntry files = Except.ok v) :
    autosaveDraftKey singleton = ("singleton", singleton) ∧
    draftLookupKey singleton = autosaveDraftKey singleton ∧
    wrapperDraft parseEntry
        (autosaveEffect store singleton true treeKeyAtSave files now) singleton
      = some { state := v, savedAt := now, treeKey := treeKeyAtSave } ∧
    draftRestoredToast
        (some { state := v, savedAt := now, treeKey := treeKeyAtSave })
        v treeKeyNow
      = some (now, decide (treeKeyNow ≠ treeKeyAtSave)) := by
  refine ⟨rfl, rfl, ?_, ?_⟩
  · simp only [wrapperDraft, draftData, getDraft, autosaveEffect, setDraft,
      autosaveDraftKey, draftLookupKey, storedValSchemaParse, if_true,
      if_pos, reduceIte, hparse]
    rfl
  · simp [draftRestoredToast]

/-- C10 witness: a draft saved under tree key `t1` is found by a session
whose tree key is `t2` and is flagged stale. -/
theorem draft_found_across_branches_witness :
    wrapperDraft (fun _ => Except.ok (42 : Nat))
        (autosaveEffect (fun _ => none) "settings" true (some "t1") [] 9)
        "settings"
      = some { state := 42, savedAt := 9, treeKey := some "t1" } :=
  (draft_found_across_branches (fun _ => Except.ok (42 : Nat))
    (fun _ => none) "settings" (some "t1") (some "t2") [] 9 42 rfl).2.2.1

end Keystatic
